import Mathlib

/-!
# Verification of the Opticia realtime streaming session engine

Shallow embedding of the client-side streaming engine:
* the audio capture/playback sample codec (`src/unnamed/part_000`, `lib/audio`),
* the `AudioProcessor` teardown discipline,
* the `WebSocketClient` connection state machine (`lib/websocket.ts`),
* the `useChat` session orchestrator handlers (`hooks/useChat.ts`).

Machine floats are modelled as rationals; the properties verified here are
about the quantization/clamping algebra, which is exact on the sample values
involved.  JavaScript strings are modelled as `List Char` / `String`.
-/

namespace Opticia

/-! ## Audio sample codec (src/unnamed/part_000) -/

namespace Audio

/-- `Math.max(-1, Math.min(1, x))` — the clamp in `float32ToPcm16` (line 15). -/
def clampSample (s : ℚ) : ℚ := max (-1) (min 1 s)

/-- JavaScript number→integer truncation toward zero, as applied when a
number is stored into an `Int16Array` element (ToIntegerOrInfinity). -/
def jsTrunc (q : ℚ) : ℤ := if q < 0 then ⌈q⌉ else ⌊q⌋

/-- Reduction of an integer into the signed 16-bit range performed by an
`Int16Array` element store (ToInt16: wrap modulo 2^16 into [−2^15, 2^15)). -/
def toInt16 (i : ℤ) : ℤ := (i + 2 ^ 15) % 2 ^ 16 - 2 ^ 15

/-- One sample of `float32ToPcm16` (src/unnamed/part_000, lines 11–19):
clamp to [−1, 1], scale negatives by 0x8000 and non-negatives by 0x7fff,
store into an `Int16Array` slot. -/
def encodeSample (s : ℚ) : ℤ :=
  toInt16 (jsTrunc
    (if clampSample s < 0 then clampSample s * 32768 else clampSample s * 32767))

/-- One sample of the playback decode in `decodePcmAudio`
(src/unnamed/part_000, line 225): `pcm16[i] / (pcm16[i] < 0 ? 0x8000 : 0x7fff)`. -/
def decodeSample (p : ℤ) : ℚ := if p < 0 then (p : ℚ) / 32768 else (p : ℚ) / 32767

/-- `float32ToPcm16` on a whole chunk. -/
def float32ToPcm16 (xs : List ℚ) : List ℤ := xs.map encodeSample

/-- The sample-decoding loop of `decodePcmAudio` on a whole chunk. -/
def decodePcmAudio (ps : List ℤ) : List ℚ := ps.map decodeSample

/-! ## AudioProcessor teardown (src/unnamed/part_000, lines 66–192) -/

/-- The observable resource-release actions `AudioProcessor.stop` can perform. -/
inductive ReleaseAction
  | disconnectProcessorNode
  | disconnectMediaStreamSource
  | closeAudioContext
deriving DecidableEq, Repr

/-- Resource-holding state of an `AudioProcessor`: each flag records whether
the corresponding nullable field (`audioContext`, `mediaStreamSource`,
`processorNode`, `stream`, `onChunk`) is non-null, plus `isProcessing`. -/
structure AudioProcessorState where
  hasAudioContext : Bool
  hasMediaStreamSource : Bool
  hasProcessorNode : Bool
  hasStream : Bool
  hasOnChunk : Bool
  isProcessing : Bool
deriving DecidableEq, Repr

/-- A freshly constructed `AudioProcessor`: every field null, not processing. -/
def AudioProcessorState.init : AudioProcessorState :=
  ⟨false, false, false, false, false, false⟩

/-- `AudioProcessor.start` (lines 77–105): returns early if already
processing; otherwise acquires the stream, chunk callback, audio context,
media-stream source and a processor node, then sets `isProcessing`. -/
def AudioProcessorState.start (p : AudioProcessorState) : AudioProcessorState :=
  if p.isProcessing then p
  else ⟨true, true, true, true, true, true⟩

/-- `AudioProcessor.stop` (lines 171–191): clears `isProcessing`, then
disconnects the processor node, the media-stream source and closes the audio
context — each only if its field is non-null — and nulls every field.
Returns the new state together with the release actions performed. -/
def AudioProcessorState.stop (p : AudioProcessorState) :
    AudioProcessorState × List ReleaseAction :=
  (⟨false, false, false, false, false, false⟩,
    (if p.hasProcessorNode then [ReleaseAction.disconnectProcessorNode] else []) ++
    (if p.hasMediaStreamSource then [ReleaseAction.disconnectMediaStreamSource] else []) ++
    (if p.hasAudioContext then [ReleaseAction.closeAudioContext] else []))

end Audio

/-! ## WebSocketClient (lib/websocket.ts)

The connection state machine.  The wire, the pending reconnect timer and the
set of transmitted messages are made explicit (`wire`, `scheduled`); the
30-second ping interval and the handler registry are not needed by any claim
and are not modelled.  `send` and every handler are total functions — the
source never lets an exception escape (`sendRaw` catches its own send
failure). -/

namespace WS

inductive ConnState
  | connecting
  | connected
  | disconnected
  | reconnecting
deriving DecidableEq, Repr

/-- Browser `WebSocket.readyState`. -/
inductive ReadyState
  | connecting
  | opened
  | closing
  | closed
deriving DecidableEq, Repr

/-- An outbound message `{type, payload}` (websocket.ts lines 56–61);
the structured payload is modelled as a key/value list. -/
structure WSMessage where
  type : String
  payload : List (String × String)
deriving DecidableEq, Repr

/-- The `session.start` message auto-emitted on `connection.established`
(websocket.ts line 191): `this.send("session.start", { mode: "voice" })`. -/
def sessionStartMsg : WSMessage := ⟨"session.start", [("mode", "voice")]⟩

/-- State of a `WebSocketClient` (lines 82–102): the nullable `ws` field and
its ready state, the reconnect configuration and counter, the FIFO outbound
queue, the session id and connection state, plus two observables: `wire`
(messages actually passed to `ws.send`, in order) and `scheduled` (the delay
of a pending reconnect timer, if one is armed). -/
structure ClientState where
  wsExists : Bool
  wsReady : ReadyState
  reconnectAttempts : Nat
  reconnectDelay : Nat
  reconnectCount : Nat
  messageQueue : List WSMessage
  sessionId : Option String
  connState : ConnState
  wire : List WSMessage
  scheduled : Option Nat
deriving DecidableEq, Repr

/-- `sendRaw` (lines 265–277): transmit iff the socket exists and is OPEN;
a send failure is caught and reported as `false`. -/
def sendRaw (c : ClientState) (m : WSMessage) : Bool × ClientState :=
  if c.wsExists ∧ c.wsReady = ReadyState.opened then
    (true, { c with wire := c.wire ++ [m] })
  else (false, c)

/-- `send` (lines 279–292): when not `connected`, append to the outbound
queue and return `false`; otherwise transmit via `sendRaw`. -/
def send (c : ClientState) (type : String) (payload : List (String × String)) :
    Bool × ClientState :=
  if c.connState ≠ ConnState.connected then
    (false, { c with messageQueue := c.messageQueue ++ [⟨type, payload⟩] })
  else sendRaw c ⟨type, payload⟩

/-- The `while` loop of `flushMessageQueue` (lines 256–263): shift each
queued message and hand it to `sendRaw`, ignoring the result. -/
def flushLoop : ClientState → List WSMessage → ClientState
  | c, [] => c
  | c, m :: rest => flushLoop (sendRaw c m).2 rest

/-- `flushMessageQueue` (lines 256–263). -/
def flushMessageQueue (c : ClientState) : ClientState :=
  flushLoop { c with messageQueue := [] } c.messageQueue

/-- The `connection.established` branch of `handleMessage` (lines 183–192):
record the session id, transition to `connected`, flush the queue in FIFO
order, then auto-send `session.start` with mode `voice`. -/
def handleConnectionEstablished (c : ClientState) (sid : String) : ClientState :=
  let c1 := { c with sessionId := some sid, connState := ConnState.connected }
  let c2 := flushMessageQueue c1
  (send c2 "session.start" [("mode", "voice")]).2

/-- `handleReconnect` (lines 215–231): at the attempt cap, settle in
`disconnected` without arming a timer; otherwise enter `reconnecting`,
bump the counter and arm a timer for `reconnectDelay * 2^(count−1)` ms. -/
def handleReconnect (c : ClientState) : ClientState :=
  if c.reconnectAttempts ≤ c.reconnectCount then
    { c with connState := ConnState.disconnected }
  else
    { c with connState := ConnState.reconnecting,
             reconnectCount := c.reconnectCount + 1,
             scheduled := some (c.reconnectDelay * 2 ^ c.reconnectCount) }

/-- `cleanup` (lines 245–254): clear the pending reconnect timer. -/
def cleanup (c : ClientState) : ClientState :=
  { c with scheduled := none }

/-- The `onopen` handler (lines 146–150): reset the reconnect counter.
(The ping interval it also starts is not modelled.) -/
def onOpen (c : ClientState) : ClientState :=
  { c with wsReady := ReadyState.opened, reconnectCount := 0 }

/-- The `onclose` handler (lines 162–174): the socket is closed, timers are
cleared; an abnormal close code (≠ 1000 and ≠ 1001) triggers
`handleReconnect`, a clean one settles in `disconnected`. -/
def onClose (c : ClientState) (code : Nat) : ClientState :=
  let c1 := cleanup { c with wsReady := ReadyState.closed }
  if code ≠ 1000 ∧ code ≠ 1001 then handleReconnect c1
  else { c1 with connState := ConnState.disconnected }

/-- `connect` (lines 121–141): no-op if the socket is already OPEN or
CONNECTING; otherwise enter `connecting` and construct a socket —
`ctorFails` models the `new WebSocket(...)` constructor throwing, in which
case `handleReconnect` runs. -/
def connect (c : ClientState) (ctorFails : Bool) : ClientState :=
  if c.wsExists ∧ c.wsReady = ReadyState.opened then c
  else if c.wsExists ∧ c.wsReady = ReadyState.connecting then c
  else
    let c1 := { c with connState := ConnState.connecting }
    if ctorFails then handleReconnect c1
    else { c1 with wsExists := true, wsReady := ReadyState.connecting }

/-- Issue a sequence of `send` calls, in order. -/
def sendAll (c : ClientState) : List WSMessage → ClientState
  | [] => c
  | m :: rest => sendAll (send c m.type m.payload).2 rest

end WS

/-! ## useChat session orchestrator (hooks/useChat.ts)

Strings are modelled as `List Char` (wrapped in `String` at the interface).
The four directive-stripping regexes of the `ai.text` handler and the
bracket-counted strip of the `ai.turn_complete` handler are embedded as
explicit scanners with the exact semantics of the JavaScript patterns
(greedy/lazy classes, case-insensitive flags, `g`-flag resumption after
each match). -/

namespace Chat

/-- JavaScript `\s` (the ASCII part; payloads handled here are ASCII). -/
def isJsSpace (c : Char) : Bool :=
  c = ' ' || c = '\t' || c = '\n' || c = '\r' || c = '\x0b' || c = '\x0c'

/-- JavaScript `String.prototype.trim` on the character-list model. -/
def jsTrim (cs : List Char) : List Char :=
  ((cs.dropWhile isJsSpace).reverse.dropWhile isJsSpace).reverse

/-- Case-insensitive character equality (regex `i` flag / `toUpperCase`). -/
def charIEq (a b : Char) : Bool := a.toUpper = b.toUpper

/-- Case-insensitive literal match at the head of the list. -/
def startsWithCI : List Char → List Char → Bool
  | [], _ => true
  | _ :: _, [] => false
  | p :: ps, c :: cs => charIEq p c && startsWithCI ps cs

/-- Length of the leading run of `\s` characters (greedy `\s*`). -/
def wsRun : List Char → Nat
  | [] => 0
  | c :: cs => if isJsSpace c then wsRun cs + 1 else 0

/-- After the opening `{` of `\{[^}]*\}\]`: the greedy class stops before
the first `}`, which must then be followed immediately by `]` (backtracking
cannot recover because `[^}]` never matches `}`).  Returns the number of
characters consumed through the `}]`. -/
def naiveBraceTail : List Char → Option Nat
  | [] => none
  | '}' :: ']' :: _ => some 2
  | '}' :: _ => none
  | _ :: cs => (naiveBraceTail cs).map (· + 1)

/-- After the opening `{` of `\{.*?\}\]` (lazy; `.` excludes line
terminators): consume up to and including the first `}]`, failing at a
newline or end of input. -/
def lazyBraceTail : List Char → Option Nat
  | '}' :: ']' :: _ => some 2
  | c :: cs => if c = '\n' || c = '\r' then none else (lazyBraceTail cs).map (· + 1)
  | [] => none

/-- After `[REPORT:`: `\s*[^\]]*\]` — everything through the first `]`. -/
def toFirstRBracket : List Char → Option Nat
  | [] => none
  | ']' :: _ => some 1
  | _ :: cs => (toFirstRBracket cs).map (· + 1)

/-- Match length of `/\[TASK:\s*\{[^}]*\}\]/i` at the head (useChat.ts
line 389). -/
def matchTaskNaive (cs : List Char) : Option Nat :=
  if startsWithCI "[TASK:".toList cs then
    let afterTag := cs.drop 6
    let n := wsRun afterTag
    match afterTag.drop n with
    | '{' :: tail => (naiveBraceTail tail).map (fun k => 6 + n + 1 + k)
    | _ => none
  else none

/-- Match length of `/\[TASK_UPDATE:\s*\{.*?\}\]/i` at the head (useChat.ts
line 390). -/
def matchTaskUpdateLazy (cs : List Char) : Option Nat :=
  if startsWithCI "[TASK_UPDATE:".toList cs then
    let afterTag := cs.drop 13
    let n := wsRun afterTag
    match afterTag.drop n with
    | '{' :: tail => (lazyBraceTail tail).map (fun k => 13 + n + 1 + k)
    | _ => none
  else none

/-- Match length of `/\[TASK_UPDATE:\s*\{[^}]*\}\]/i` — the greedy variant
used by the turn-complete handler (useChat.ts line 546). -/
def matchTaskUpdateGreedy (cs : List Char) : Option Nat :=
  if startsWithCI "[TASK_UPDATE:".toList cs then
    let afterTag := cs.drop 13
    let n := wsRun afterTag
    match afterTag.drop n with
    | '{' :: tail => (naiveBraceTail tail).map (fun k => 13 + n + 1 + k)
    | _ => none
  else none

/-- Match length of `/\[TASK_COMPLETE\]/i` at the head. -/
def matchTaskComplete (cs : List Char) : Option Nat :=
  if startsWithCI "[TASK_COMPLETE]".toList cs then some 15 else none

/-- Match length of `/\[REPORT:\s*[^\]]*\]/i` at the head. -/
def matchReport (cs : List Char) : Option Nat :=
  if startsWithCI "[REPORT:".toList cs then
    (toFirstRBracket (cs.drop 8)).map (fun k => 8 + k)
  else none

/-- `String.replace(/pat/g, "")`: scan left to right, delete each match and
resume immediately after it.  `fuel`, initialized to the length, keeps the
recursion structural (every step consumes at least one character, so the
fuel never runs out); the patterns above never match the empty string. -/
def replaceAllAux (m : List Char → Option Nat) : Nat → List Char → List Char
  | _, [] => []
  | 0, cs => cs
  | fuel + 1, c :: cs =>
    match m (c :: cs) with
    | some (k + 1) => replaceAllAux m fuel (cs.drop k)
    | _ => c :: replaceAllAux m fuel cs

/-- Global-replace of a pattern by the empty string. -/
def replaceAll (m : List Char → Option Nat) (cs : List Char) : List Char :=
  replaceAllAux m cs.length cs

/-- The four chained `content.replace(...)` calls of the `ai.text` handler
(useChat.ts lines 388–392), applied in source order. -/
def stripDeltaPatterns (s : String) : String :=
  (replaceAll matchReport
    (replaceAll matchTaskComplete
      (replaceAll matchTaskUpdateLazy
        (replaceAll matchTaskNaive s.toList)))).asString

/-- `toUpperCase().indexOf(pat)`: index of the first case-insensitive
occurrence. -/
def findCI (pat : List Char) : List Char → Option Nat
  | [] => if startsWithCI pat [] then some 0 else none
  | c :: cs =>
    if startsWithCI pat (c :: cs) then some 0 else (findCI pat cs).map (· + 1)

/-- `indexOf(ch, from)`: index of the first occurrence of `ch` at or after
position `from`. -/
def findCharFrom (ch : Char) (cs : List Char) (start : Nat) : Option Nat :=
  match (cs.drop start).findIdx? (· == ch) with
  | some i => some (start + i)
  | none => none

/-- The depth-counting loop of the turn-complete handler (useChat.ts lines
529–541): relative index of the `}` that brings the running brace depth
back to zero, if any. -/
def braceMatchEnd : List Char → Int → Option Nat
  | [], _ => none
  | '{' :: cs, d => (braceMatchEnd cs (d + 1)).map (· + 1)
  | '}' :: cs, d => if d = 1 then some 0 else (braceMatchEnd cs (d - 1)).map (· + 1)
  | _ :: cs, d => (braceMatchEnd cs d).map (· + 1)

/-- The bracket-counted strip of the first `[TASK: {...}]` (useChat.ts
lines 525–544): find `[TASK:` case-insensitively, the first `{` after it,
scan to the depth-zero `}`, then cut through the first `]` after that;
any failure leaves the text unchanged. -/
def stripTaskBracketCounted (cs : List Char) : List Char :=
  match findCI "[TASK:".toList cs with
  | none => cs
  | some taskIdx =>
    match findCharFrom '{' cs taskIdx with
    | none => cs
    | some braceStart =>
      match braceMatchEnd (cs.drop braceStart) 0 with
      | none => cs
      | some rel =>
        match findCharFrom ']' cs (braceStart + rel) with
        | none => cs
        | some closeBracket => cs.take taskIdx ++ cs.drop (closeBracket + 1)

/-- The whole turn-complete cleanup (useChat.ts lines 523–549):
bracket-counted `[TASK: {...}]` strip, then the greedy `TASK_UPDATE`,
`TASK_COMPLETE` and `REPORT` regex strips, then `trim()`. -/
def cleanTurnComplete (s : String) : String :=
  (jsTrim
    (replaceAll matchReport
      (replaceAll matchTaskComplete
        (replaceAll matchTaskUpdateGreedy
          (stripTaskBracketCounted s.toList))))).asString

/-- `\*\*([^*\n]+)\*\*`: the capture and the total characters consumed. -/
def starsCapture : List Char → Option (List Char × Nat)
  | '*' :: '*' :: rest =>
    let t := rest.takeWhile (fun c => c != '*' && c != '\n')
    if 1 ≤ t.length then
      match rest.drop t.length with
      | '*' :: '*' :: _ => some (t, t.length + 4)
      | _ => none
    else none
  | _ => none

/-- One attempt of the thinking-header pattern just after its anchor
(useChat.ts line 408, `(?:^|\n)\s*(?:#{1,6}\s+)?\*\*([^*\n]+)\*\*`):
whitespace run, optional 1–6 `#` heading marker followed by whitespace,
then the starred capture.  When a heading marker is present but not
followed by whitespace-then-stars the whole attempt fails, exactly as the
backtracking regex does. -/
def headerAfterAnchor (cs : List Char) : Option (List Char × Nat) :=
  let n := wsRun cs
  let rest := cs.drop n
  let hashes := (rest.takeWhile (· == '#')).length
  if 1 ≤ hashes ∧ hashes ≤ 6 then
    let rest2 := rest.drop hashes
    let m := wsRun rest2
    if 1 ≤ m then
      (starsCapture (rest2.drop m)).map (fun p => (p.1, n + hashes + m + p.2))
    else none
  else (starsCapture rest).map (fun p => (p.1, n + p.2))

/-- The `g`-flag loop over the buffer for anchors at a `\n`; `fuel` is the
remaining length, making the recursion structural. -/
def headerScanAux : Nat → List Char → List (List Char)
  | _, [] => []
  | 0, _ => []
  | fuel + 1, '\n' :: cs =>
    match headerAfterAnchor cs with
    | some (t, k) => t :: headerScanAux fuel (cs.drop k)
    | none => headerScanAux fuel cs
  | fuel + 1, _ :: cs => headerScanAux fuel cs

/-- All captures of the thinking-header pattern, first trying the
start-of-string anchor, then each newline. -/
def headerCaptures (cs : List Char) : List (List Char) :=
  match headerAfterAnchor cs with
  | some (t, k) => t :: headerScanAux (cs.drop k).length (cs.drop k)
  | none => headerScanAux cs.length cs

/-- `Array.prototype.map((x, i) => ...)`, with an explicit start index. -/
def mapIdxFrom (f : Nat → α → β) : Nat → List α → List β
  | _, [] => []
  | i, a :: l => f i a :: mapIdxFrom f (i + 1) l

inductive Role
  | user
  | ai
  | system
deriving DecidableEq, Repr

/-- A conversation `Message` (useChat.ts lines 322–329); `id` models the
`crypto.randomUUID()` value by a fresh counter, `timestamp` the `Date`.
The presentational `type` field is not needed by any handler modelled
here. -/
structure Message where
  id : Nat
  role : Role
  content : String
  timestamp : Nat
  isStreaming : Bool
deriving DecidableEq, Repr

inductive ThinkStatus
  | pending
  | active
  | complete
deriving DecidableEq, Repr

/-- A `ThinkingStep` (useChat.ts lines 331–336). -/
structure ThinkingStep where
  icon : String
  text : String
  status : ThinkStatus
  timestamp : Option Nat
deriving DecidableEq, Repr

inductive StepStatus
  | completed
  | current
  | upcoming
deriving DecidableEq, Repr

/-- A task `Step` (components/task/types): id, title, status.  The
presentational `description`, `warning` and `toggleable` fields play no
part in any handler. -/
structure Step where
  id : String
  title : String
  status : StepStatus
deriving DecidableEq, Repr

/-- The orchestrator state owned by `useChat` that the modelled handlers
read or write: message list, loading/thinking flags, thinking steps, task
state, the AI streaming refs, and a fresh-id counter. -/
structure ChatState where
  messages : List Message
  isLoading : Bool
  thinkingSteps : List ThinkingStep
  isThinking : Bool
  taskTitle : String
  taskSteps : List Step
  isTaskActive : Bool
  isAiStreaming : Bool
  aiTextBuffer : String
  nextId : Nat
deriving DecidableEq, Repr

/-- Initial hook state (useChat.ts lines 358–372). -/
def ChatState.init : ChatState :=
  ⟨[], false, [], false, "", [], false, false, "", 0⟩

/-- The icon rotation for derived thinking steps (useChat.ts line 416):
U+1F50D, U+1F4AD, U+1F50E, U+1F4A1, U+1F4DD, U+2728. -/
def thinkIcons : List String :=
  [⟨[Char.ofNat 0x1F50D]⟩, ⟨[Char.ofNat 0x1F4AD]⟩, ⟨[Char.ofNat 0x1F50E]⟩,
   ⟨[Char.ofNat 0x1F4A1]⟩, ⟨[Char.ofNat 0x1F4DD]⟩, ⟨[Char.ofNat 0x2728]⟩]

/-- The `ai.text` handler (useChat.ts lines 384–460).  `complete = false`
also covers an absent flag (both are falsy in every test the handler
performs).  `now` supplies the `new Date()` timestamp. -/
def aiText (st : ChatState) (rawContent : String) (complete : Bool) (now : Nat) :
    ChatState :=
  let content := stripDeltaPatterns rawContent
  if content = "" ∧ complete = false then st
  else
    let st1 :=
      if st.isAiStreaming = false then
        { st with isAiStreaming := true, aiTextBuffer := "",
                  thinkingSteps := [], isThinking := true }
      else st
    let buffer := st1.aiTextBuffer ++ content
    let st2 := { st1 with aiTextBuffer := buffer }
    let headers := (headerCaptures buffer.toList).map (fun t => (jsTrim t).asString)
    let st3 :=
      if 0 < headers.length then
        { st2 with thinkingSteps := mapIdxFrom (fun i text =>
            { icon := (thinkIcons.get? (i % thinkIcons.length)).getD "",
              text := text,
              status := if complete = true ∨ i + 1 < headers.length then
                  ThinkStatus.complete else ThinkStatus.active,
              timestamp := none }) 0 headers }
      else st2
    let finalized := st3.messages.map (fun m =>
      if m.role = Role.user ∧ m.isStreaming = true then
        { m with isStreaming := false } else m)
    let lastAiStreaming : Bool :=
      match finalized.getLast? with
      | some lm => decide (lm.role = Role.ai) && lm.isStreaming
      | none => false
    let st4 :=
      if lastAiStreaming then
        { st3 with messages := mapIdxFrom (fun i m =>
            if i + 1 = finalized.length then
              { m with content := m.content ++ content, isStreaming := !complete }
            else m) 0 finalized }
      else
        { st3 with
            messages := finalized ++ [⟨st3.nextId, Role.ai, content, now, !complete⟩],
            nextId := st3.nextId + 1 }
    if complete then
      { st4 with isAiStreaming := false, isLoading := false, isThinking := false }
    else st4

/-- The `ai.turn_complete` handler (useChat.ts lines 511–554): clear the
streaming/loading/thinking flags, mark every thinking step complete, and
finalize the last message if it is a streaming AI message, cleaning its
accumulated content. -/
def turnComplete (st : ChatState) : ChatState :=
  { st with
    isAiStreaming := false, isLoading := false, isThinking := false,
    thinkingSteps := st.thinkingSteps.map (fun s =>
      { s with status := ThinkStatus.complete }),
    messages := mapIdxFrom (fun i m =>
      if i + 1 = st.messages.length ∧ m.role = Role.ai ∧ m.isStreaming = true then
        { m with content := cleanTurnComplete m.content, isStreaming := false }
      else m) 0 st.messages }

/-- The `task.start` handler (useChat.ts lines 563–568). -/
def taskStart (st : ChatState) (title : String) (steps : List Step) : ChatState :=
  { st with taskTitle := title, taskSteps := steps, isTaskActive := true }

/-- The `task.step_update` handler (useChat.ts lines 570–584): set the
status at `stepIndex` verbatim from the payload; if the step at
`stepIndex + 1` is `upcoming`, promote it to `current`. -/
def taskStepUpdate (st : ChatState) (stepIndex : Nat) (status : StepStatus) :
    ChatState :=
  { st with taskSteps := mapIdxFrom (fun i s =>
      if i = stepIndex then { s with status := status }
      else if i = stepIndex + 1 ∧ s.status = StepStatus.upcoming then
        { s with status := StepStatus.current }
      else s) 0 st.taskSteps }

/-- `handleToggleStep` (useChat.ts lines 769–791): find the step by id,
toggle completed↔upcoming; when the new status is `completed`, promote an
`upcoming` step at the next index to `current` and emit one
`task.step_done{stepIndex, stepId}` notification. -/
def handleToggleStep (st : ChatState) (stepId : String) :
    ChatState × List (Nat × String) :=
  match st.taskSteps.findIdx? (fun s => s.id == stepId) with
  | none => (st, [])
  | some stepIndex =>
    match st.taskSteps[stepIndex]? with
    | none => (st, [])
    | some step =>
      let newStatus :=
        if step.status = StepStatus.completed then StepStatus.upcoming
        else StepStatus.completed
      let steps := mapIdxFrom (fun i s =>
        if i = stepIndex then { s with status := newStatus }
        else if newStatus = StepStatus.completed ∧ i = stepIndex + 1 ∧
            s.status = StepStatus.upcoming then
          { s with status := StepStatus.current }
        else s) 0 st.taskSteps
      ({ st with taskSteps := steps },
        if newStatus = StepStatus.completed then [(stepIndex, stepId)] else [])

/-- Number of steps whose status is `current`. -/
def countCurrent (steps : List Step) : Nat :=
  steps.countP (fun s => decide (s.status = StepStatus.current))

/-- An attachment `{type, data}` passed to `sendMessage`. -/
structure Attachment where
  type : String
  data : String
deriving DecidableEq, Repr

/-- The outbound transmissions `sendMessage` can cause. -/
inductive OutAction
  | sendPhoto (data : String) (context : String)
  | sendText (content : String) (frame : Option String)
deriving DecidableEq, Repr

/-- The inline-frame extraction in `sendMessage` (useChat.ts line 688):
`dataUrl.startsWith("data:") ? dataUrl.split(",")[1] : dataUrl` — the
split index is `undefined` when no comma is present. -/
def extractFrameBase64 (dataUrl : String) : Option String :=
  if dataUrl.startsWith "data:" then (dataUrl.splitOn ",").get? 1
  else some dataUrl

/-- `sendMessage` (useChat.ts lines 658–695).  `captureFrame = none` models
an absent `options.captureFrame`; `some r` a present callback returning
`r` (`none` for `null`).  Returns the new state and the transmissions
performed, in order. -/
def sendMessage (st : ChatState) (content : String)
    (attachments : Option (List Attachment)) (captureFrame : Option (Option String))
    (now : Nat) : ChatState × List OutAction :=
  if jsTrim content.toList = [] ∧ (attachments.getD []).isEmpty then (st, [])
  else
    let st1 := { st with
      messages := st.messages ++ [⟨st.nextId, Role.user, content, now, false⟩],
      nextId := st.nextId + 1,
      isLoading := true, thinkingSteps := [], isThinking := false,
      isAiStreaming := false }
    if (attachments.getD []).isEmpty = false then
      (st1, (attachments.getD []).filterMap (fun a =>
        if a.type = "image" then some (OutAction.sendPhoto a.data content) else none))
    else
      let frame :=
        match captureFrame with
        | none => none
        | some none => none
        | some (some dataUrl) => extractFrameBase64 dataUrl
      (st1, [OutAction.sendText content frame])

end Chat

end Opticia

namespace Opticia

namespace Audio

/-- C5 helper: on [−1, 1] the clamp is the identity. -/
theorem clampSample_eq_self {s : ℚ} (h1 : -1 ≤ s) (h2 : s ≤ 1) :
    clampSample s = s := by
  unfold clampSample
  rw [min_eq_right h2, max_eq_right h1]

/-- C5 helper: `toInt16` is the identity on the signed 16-bit range. -/
theorem toInt16_eq_self {i : ℤ} (h1 : -32768 ≤ i) (h2 : i ≤ 32767) :
    toInt16 i = i := by
  unfold toInt16
  have h0 : (0 : ℤ) ≤ i + 2 ^ 15 := by norm_num; linarith
  have hlt : i + 2 ^ 15 < 2 ^ 16 := by norm_num; linarith
  rw [Int.emod_eq_of_lt h0 hlt]
  ring

/-- C5, non-negative branch. -/
theorem roundtrip_nonneg {s : ℚ} (h0 : 0 ≤ s) (h2 : s ≤ 1) :
    |decodeSample (encodeSample s) - s| ≤ 1 / 32767 := by
  have hc : clampSample s = s := clampSample_eq_self (by linarith) h2
  have hx0 : (0 : ℚ) ≤ s * 32767 := by positivity
  have hfl : (0 : ℤ) ≤ ⌊s * 32767⌋ := Int.floor_nonneg.mpr hx0
  have hfu : ⌊s * 32767⌋ ≤ 32767 := by
    have hle : (⌊s * 32767⌋ : ℚ) ≤ s * 32767 := Int.floor_le _
    have : (⌊s * 32767⌋ : ℚ) ≤ (32767 : ℚ) := by nlinarith
    exact_mod_cast this
  have henc : encodeSample s = ⌊s * 32767⌋ := by
    unfold encodeSample jsTrunc
    rw [hc, if_neg (not_lt.mpr h0), if_neg (not_lt.mpr hx0)]
    exact toInt16_eq_self (by linarith) hfu
  rw [henc]
  unfold decodeSample
  rw [if_neg (by push_neg; exact_mod_cast hfl)]
  have hle : (⌊s * 32767⌋ : ℚ) ≤ s * 32767 := Int.floor_le _
  have hgt : s * 32767 < (⌊s * 32767⌋ : ℚ) + 1 := Int.lt_floor_add_one _
  rw [abs_le]
  constructor <;> nlinarith

/-- C5, negative branch. -/
theorem roundtrip_neg {s : ℚ} (h1 : -1 ≤ s) (h0 : s < 0) :
    |decodeSample (encodeSample s) - s| ≤ 1 / 32767 := by
  have hc : clampSample s = s := clampSample_eq_self h1 (by linarith)
  have hx0 : s * 32768 < 0 := by nlinarith
  have hcl : ⌈s * 32768⌉ ≤ 0 := Int.ceil_le.mpr (by push_cast; linarith)
  have hcg : (-32768 : ℤ) ≤ ⌈s * 32768⌉ := by
    have hge : (-32768 : ℚ) ≤ s * 32768 := by nlinarith
    have hle := Int.le_ceil (s * 32768)
    exact_mod_cast (by linarith : (-32768 : ℚ) ≤ (⌈s * 32768⌉ : ℚ))
  have henc : encodeSample s = ⌈s * 32768⌉ := by
    unfold encodeSample jsTrunc
    rw [hc, if_pos h0, if_pos hx0]
    exact toInt16_eq_self hcg (by linarith)
  rw [henc]
  have hceil_le : (s * 32768 : ℚ) ≤ (⌈s * 32768⌉ : ℚ) := Int.le_ceil _
  have hceil_lt : ((⌈s * 32768⌉ : ℤ) : ℚ) < s * 32768 + 1 := by
    exact_mod_cast Int.ceil_lt_add_one (s * 32768)
  unfold decodeSample
  by_cases hz : ⌈s * 32768⌉ < 0
  · rw [if_pos hz]
    rw [abs_le]
    constructor <;> nlinarith
  · push_neg at hz
    have hz0 : ⌈s * 32768⌉ = 0 := le_antisymm hcl hz
    rw [if_neg (by omega)]
    rw [hz0]
    rw [abs_le]
    rw [hz0] at hceil_lt
    push_cast at hceil_lt
    constructor <;> nlinarith

/-- C5: for every sample in [−1, 1], encoding through the capture path
(`float32ToPcm16`: scale negatives by 32768 and non-negatives by 32767,
truncate into a signed 16-bit slot) and decoding through the playback path
(`decodePcmAudio`: divide negatives by 32768 and non-negatives by 32767)
yields a value within 1/32767 of the original sample. -/
theorem c5_capture_playback_roundtrip (s : ℚ) (h1 : -1 ≤ s) (h2 : s ≤ 1) :
    |decodeSample (encodeSample s) - s| ≤ 1 / 32767 := by
  rcases lt_or_le s 0 with h | h
  · exact roundtrip_neg h1 h
  · exact roundtrip_nonneg h h2

/-- Witness for C5 at the concrete sample 1/2. -/
theorem c5_capture_playback_roundtrip_witness :
    (-1 : ℚ) ≤ 1 / 2 ∧ (1 / 2 : ℚ) ≤ 1 ∧
      |decodeSample (encodeSample (1 / 2)) - 1 / 2| ≤ 1 / 32767 :=
  ⟨by norm_num, by norm_num,
    c5_capture_playback_roundtrip (1 / 2) (by norm_num) (by norm_num)⟩

/-- C8: `stop()` on the capture pipeline is idempotent teardown — after a
first `stop()` every resource field is null, a second `stop()` performs no
release action and leaves the state unchanged, `stop()` before `start()` on
a fresh processor releases nothing, and `stop()` after a completed `start()`
releases the processor node, the source node and the audio context exactly
once each. -/
theorem c8_stop_idempotent (p : AudioProcessorState) :
    (p.stop.1.stop = (p.stop.1, [])) ∧
    p.stop.1.hasAudioContext = false ∧
    p.stop.1.hasMediaStreamSource = false ∧
    p.stop.1.hasProcessorNode = false ∧
    (AudioProcessorState.init.stop = (AudioProcessorState.init, [])) ∧
    (AudioProcessorState.init.start.stop.2 =
      [ReleaseAction.disconnectProcessorNode,
       ReleaseAction.disconnectMediaStreamSource,
       ReleaseAction.closeAudioContext]) := by
  refine ⟨?_, rfl, rfl, rfl, rfl, rfl⟩
  rfl

end Audio

namespace WS

/-- Helper: `send` while not connected only appends to the queue. -/
theorem send_not_connected {c : ClientState} (t : String) (p : List (String × String))
    (h : c.connState ≠ ConnState.connected) :
    send c t p = (false, { c with messageQueue := c.messageQueue ++ [⟨t, p⟩] }) := by
  unfold send
  rw [if_pos h]

/-- Helper: a sequence of `send`s issued while not connected appends the
messages to the queue in FIFO order and changes nothing else. -/
theorem sendAll_not_connected {c : ClientState} (ms : List WSMessage)
    (h : c.connState ≠ ConnState.connected) :
    sendAll c ms = { c with messageQueue := c.messageQueue ++ ms } := by
  induction ms generalizing c with
  | nil => simp [sendAll]
  | cons m rest ih =>
      unfold sendAll
      rw [send_not_connected m.type m.payload h]
      rw [ih (c := { c with messageQueue := c.messageQueue ++ [⟨m.type, m.payload⟩] }) h]
      simp

/-- Helper: flushing over an OPEN socket transmits every message, in order. -/
theorem flushLoop_open {c : ClientState} (ms : List WSMessage)
    (hex : c.wsExists = true) (hop : c.wsReady = ReadyState.opened) :
    flushLoop c ms = { c with wire := c.wire ++ ms } := by
  induction ms generalizing c with
  | nil => simp [flushLoop]
  | cons m rest ih =>
      unfold flushLoop sendRaw
      rw [if_pos ⟨by simp [hex], hop⟩]
      rw [ih (c := { c with wire := c.wire ++ [m] }) hex hop]
      simp

/-- C2: for every sequence of `send` calls issued while the connection state
is not `connected`, followed by a `connection.established` event over an
open socket: the previously queued and newly issued messages reach the wire
in exactly FIFO issue order, the auto-emitted `session.start` message is
transmitted after every earlier-queued message, and the queue is left
empty. -/
theorem c2_fifo_flush_then_session_start (c : ClientState) (ms : List WSMessage)
    (sid : String) (hnc : c.connState ≠ ConnState.connected)
    (hex : c.wsExists = true) (hop : c.wsReady = ReadyState.opened) :
    (handleConnectionEstablished (sendAll c ms) sid).wire
      = c.wire ++ (c.messageQueue ++ ms) ++ [sessionStartMsg] ∧
    (handleConnectionEstablished (sendAll c ms) sid).messageQueue = [] := by
  simp [sendAll_not_connected ms hnc, handleConnectionEstablished, flushMessageQueue,
    flushLoop_open, send, sendRaw, sessionStartMsg, hex, hop]

/-- Witness for C2: two messages queued while disconnected, then the
handshake, in a concrete client state. -/
theorem c2_fifo_flush_then_session_start_witness :
    (handleConnectionEstablished
        (sendAll
          ⟨true, ReadyState.opened, 5, 1000, 0, [], none,
            ConnState.connecting, [], none⟩
          [⟨"text.send", [("content", "hi")]⟩, ⟨"network.ping", []⟩])
        "s1").wire
      = [⟨"text.send", [("content", "hi")]⟩, ⟨"network.ping", []⟩,
         sessionStartMsg] ∧
    (handleConnectionEstablished
        (sendAll
          ⟨true, ReadyState.opened, 5, 1000, 0, [], none,
            ConnState.connecting, [], none⟩
          [⟨"text.send", [("content", "hi")]⟩, ⟨"network.ping", []⟩])
        "s1").messageQueue = [] := by
  have h := c2_fifo_flush_then_session_start
    ⟨true, ReadyState.opened, 5, 1000, 0, [], none, ConnState.connecting, [], none⟩
    [⟨"text.send", [("content", "hi")]⟩, ⟨"network.ping", []⟩]
    "s1" (by decide) rfl rfl
  simpa using h

/-- C4: under the default configuration (base delay 1000 ms, 5 attempts),
an abnormal close with the counter at k < 5 arms the (k+1)-th reconnect
attempt after 1000·2^k ms (1 s, 2 s, 4 s, 8 s, 16 s for k = 0..4) and
enters `reconnecting`; with the counter at 5 the state settles at
`disconnected` with no timer armed; a successful open resets the counter
to zero. -/
theorem c4_exponential_backoff (c : ClientState) (code : Nat)
    (hatt : c.reconnectAttempts = 5) (hdel : c.reconnectDelay = 1000)
    (hcode : code ≠ 1000 ∧ code ≠ 1001) :
    (∀ k, c.reconnectCount = k → k < 5 →
        (onClose c code).connState = ConnState.reconnecting ∧
        (onClose c code).reconnectCount = k + 1 ∧
        (onClose c code).scheduled = some (1000 * 2 ^ k)) ∧
    (c.reconnectCount = 5 →
        (onClose c code).connState = ConnState.disconnected ∧
        (onClose c code).scheduled = none) ∧
    (onOpen c).reconnectCount = 0 := by
  unfold onClose cleanup handleReconnect onOpen
  rw [if_pos hcode]
  refine ⟨?_, ?_, rfl⟩
  · intro k hk hk5
    simp only [hatt, hdel, hk]
    rw [if_neg (by omega)]
    exact ⟨rfl, rfl, rfl⟩
  · intro h5
    simp only [hatt, h5]
    rw [if_pos (by omega)]
    exact ⟨rfl, rfl⟩

/-- Witness for C4: first abnormal close at counter 0 schedules a 1000 ms
retry; at counter 5 the client settles disconnected with no timer. -/
theorem c4_exponential_backoff_witness :
    (onClose
        ⟨true, ReadyState.opened, 5, 1000, 0, [], none,
          ConnState.connected, [], none⟩ 1006).scheduled = some 1000 ∧
    (onClose
        ⟨true, ReadyState.opened, 5, 1000, 5, [], none,
          ConnState.reconnecting, [], none⟩ 1006).connState
      = ConnState.disconnected ∧
    (onOpen
        ⟨true, ReadyState.opened, 5, 1000, 3, [], none,
          ConnState.connecting, [], none⟩).reconnectCount = 0 := by
  have h0 := c4_exponential_backoff
    ⟨true, ReadyState.opened, 5, 1000, 0, [], none, ConnState.connected, [], none⟩
    1006 rfl rfl (by decide)
  have h5 := c4_exponential_backoff
    ⟨true, ReadyState.opened, 5, 1000, 5, [], none, ConnState.reconnecting, [], none⟩
    1006 rfl rfl (by decide)
  have h3 := c4_exponential_backoff
    ⟨true, ReadyState.opened, 5, 1000, 3, [], none, ConnState.connecting, [], none⟩
    1006 rfl rfl (by decide)
  exact ⟨(h0.1 0 rfl (by decide)).2.2, (h5.2.1 rfl).1, h3.2.2⟩

/-- C6: `send` is a total function (the source catches its own transport
errors); when the state is `connected` (over the open socket the state
machine guarantees) the message is transmitted immediately and `send`
returns `true`, otherwise the message is appended to the outbound queue and
`send` returns `false`. -/
theorem c6_send_transmits_or_queues (c : ClientState) (t : String)
    (p : List (String × String))
    (hinv : c.connState = ConnState.connected →
      c.wsExists = true ∧ c.wsReady = ReadyState.opened) :
    (c.connState = ConnState.connected →
       send c t p = (true, { c with wire := c.wire ++ [⟨t, p⟩] })) ∧
    (c.connState ≠ ConnState.connected →
       send c t p = (false, { c with messageQueue := c.messageQueue ++ [⟨t, p⟩] })) := by
  constructor
  · intro hcon
    obtain ⟨hex, hop⟩ := hinv hcon
    unfold send sendRaw
    rw [if_neg (by simp [hcon]), if_pos ⟨by simp [hex], hop⟩]
  · intro hnc
    exact send_not_connected t p hnc

/-- Witness for C6: a connected client transmits, a disconnected one
queues. -/
theorem c6_send_transmits_or_queues_witness :
    (send
        ⟨true, ReadyState.opened, 5, 1000, 0, [], some "s",
          ConnState.connected, [], none⟩ "network.ping" []).1 = true ∧
    (send
        ⟨false, ReadyState.closed, 5, 1000, 0, [], none,
          ConnState.disconnected, [], none⟩ "network.ping" []).1 = false := by
  have hcon := c6_send_transmits_or_queues
    ⟨true, ReadyState.opened, 5, 1000, 0, [], some "s", ConnState.connected, [], none⟩
    "network.ping" [] (fun _ => ⟨rfl, rfl⟩)
  have hdis := c6_send_transmits_or_queues
    ⟨false, ReadyState.closed, 5, 1000, 0, [], none, ConnState.disconnected, [], none⟩
    "network.ping" [] (by intro h; cases h)
  constructor
  · rw [hcon.1 rfl]
  · rw [hdis.2 (by decide)]

/-- C9: the reconnect counter is reset only by a successful open — `connect`
itself never resets it; consequently, once the counter has reached the
configured maximum, a manual `connect` whose constructor fails goes straight
to `disconnected` without arming a reconnect timer, and one whose socket
closes abnormally does the same. -/
theorem c9_connect_at_max_attempts (c : ClientState)
    (hmax : c.reconnectAttempts ≤ c.reconnectCount)
    (hws : ¬(c.wsExists = true ∧
      (c.wsReady = ReadyState.opened ∨ c.wsReady = ReadyState.connecting)))
    (hsched : c.scheduled = none) :
    (connect c false).reconnectCount = c.reconnectCount ∧
    (onOpen c).reconnectCount = 0 ∧
    ((connect c true).connState = ConnState.disconnected ∧
      (connect c true).scheduled = none) ∧
    ((onClose (connect c false) 1006).connState = ConnState.disconnected ∧
      (onClose (connect c false) 1006).scheduled = none) := by
  have hno : ¬(c.wsExists = true ∧ c.wsReady = ReadyState.opened) := by
    intro ⟨h1, h2⟩; exact hws ⟨h1, Or.inl h2⟩
  have hnc : ¬(c.wsExists = true ∧ c.wsReady = ReadyState.connecting) := by
    intro ⟨h1, h2⟩; exact hws ⟨h1, Or.inr h2⟩
  have hconn : connect c false
      = { c with connState := ConnState.connecting,
                 wsExists := true, wsReady := ReadyState.connecting } := by
    unfold connect
    rw [if_neg (by simpa using hno), if_neg (by simpa using hnc), if_neg (by simp)]
  refine ⟨by rw [hconn], rfl, ?_, ?_⟩
  · unfold connect handleReconnect
    rw [if_neg (by simpa using hno), if_neg (by simpa using hnc), if_pos rfl,
      if_pos (by simpa using hmax)]
    exact ⟨rfl, hsched⟩
  · rw [hconn]
    unfold onClose cleanup handleReconnect
    rw [if_pos (by omega), if_pos (by simpa using hmax)]
    exact ⟨rfl, rfl⟩

/-- Witness for C9 at a concrete exhausted client. -/
theorem c9_connect_at_max_attempts_witness :
    (connect
        ⟨false, ReadyState.closed, 5, 1000, 5, [], none,
          ConnState.disconnected, [], none⟩ true).connState
      = ConnState.disconnected ∧
    (onClose
        (connect
          ⟨false, ReadyState.closed, 5, 1000, 5, [], none,
            ConnState.disconnected, [], none⟩ false) 1006).scheduled = none := by
  have h := c9_connect_at_max_attempts
    ⟨false, ReadyState.closed, 5, 1000, 5, [], none, ConnState.disconnected, [], none⟩
    (by decide) (by decide) rfl
  exact ⟨h.2.2.1.1, h.2.2.2.2⟩

end WS

namespace Chat

/-- Helper: `mapIdxFrom` preserves the length. -/
theorem length_mapIdxFrom (g : Nat → α → β) :
    ∀ (j0 : Nat) (l : List α), (mapIdxFrom g j0 l).length = l.length
  | _, [] => rfl
  | j0, _ :: l => by simp [mapIdxFrom, length_mapIdxFrom g (j0 + 1) l]

/-- Helper: indexed lookup through `mapIdxFrom`. -/
theorem getElem?_mapIdxFrom (g : Nat → α → β) (j0 : Nat) (l : List α) (j : Nat) :
    (mapIdxFrom g j0 l)[j]? = (l[j]?).map (g (j0 + j)) := by
  induction l generalizing j0 j with
  | nil => simp [mapIdxFrom]
  | cons a t ih =>
      cases j with
      | zero => simp [mapIdxFrom]
      | succ jj =>
          have harg : j0 + 1 + jj = j0 + (jj + 1) := by omega
          simp only [mapIdxFrom, List.getElem?_cons_succ, ih, harg]

/-- Helper: last element through `mapIdxFrom`. -/
theorem getLast?_mapIdxFrom (g : Nat → α → α) (j0 : Nat) (l : List α) (m : α)
    (h : l.getLast? = some m) :
    (mapIdxFrom g j0 l).getLast? = some (g (j0 + l.length - 1) m) := by
  have hne : l ≠ [] := by
    intro he
    subst he
    cases h
  have hlen1 : 1 ≤ l.length := by
    cases l with
    | nil => exact absurd rfl hne
    | cons a t => simp
  rw [List.getLast?_eq_getElem?] at h
  rw [List.getLast?_eq_getElem?, length_mapIdxFrom, getElem?_mapIdxFrom, h]
  have harg : j0 + (l.length - 1) = j0 + l.length - 1 := by omega
  rw [Option.map_some', harg]

/-- Helper: a list with no `current` step counts zero. -/
theorem countCurrent_zero_of_none (l : List Step)
    (h : ∀ (j : Nat) (s : Step), l[j]? = some s → s.status ≠ StepStatus.current) :
    countCurrent l = 0 := by
  induction l with
  | nil => rfl
  | cons a t ih =>
      have ha : ¬a.status = StepStatus.current := h 0 a (by simp)
      have ht : countCurrent t = 0 :=
        ih (fun j s hj => h (j + 1) s (by simpa using hj))
      simpa [countCurrent, List.countP_cons, ha] using ht

/-- Helper: if every `current` step sits at one fixed index, there is at
most one `current` step. -/
theorem countCurrent_le_one (l : List Step) (k : Nat)
    (h : ∀ (j : Nat) (s : Step), l[j]? = some s → s.status = StepStatus.current → j = k) :
    countCurrent l ≤ 1 := by
  induction l generalizing k with
  | nil => simp [countCurrent]
  | cons a t ih =>
      by_cases ha : a.status = StepStatus.current
      · have ht : countCurrent t = 0 := by
          apply countCurrent_zero_of_none
          intro j s hj hc
          have h0 : (0 : Nat) = k := h 0 a (by simp) ha
          have hj1 : j + 1 = k := h (j + 1) s (by simpa using hj) hc
          omega
        have : countCurrent (a :: t) = countCurrent t + 1 := by
          simp [countCurrent, List.countP_cons, ha]
        omega
      · have ht : countCurrent t ≤ 1 := by
          cases k with
          | zero =>
              have : countCurrent t = 0 := by
                apply countCurrent_zero_of_none
                intro j s hj hc
                have := h (j + 1) s (by simpa using hj) hc
                omega
              omega
          | succ kk =>
              exact ih kk (fun j s hj hc => by
                have := h (j + 1) s (by simpa using hj) hc
                omega)
        simpa [countCurrent, List.countP_cons, ha] using ht

/-- C3 counterexample: from a well-formed task (exactly one `current`
step), a `task.step_update` completing step 1 while the `current` marker
sits on step 0 promotes step 2 and leaves two `current` steps, refuting the
claimed invariant on reachable states. -/
theorem c3_two_current_counterexample :
    countCurrent
      [⟨"s1", "A", StepStatus.current⟩, ⟨"s2", "B", StepStatus.upcoming⟩,
       ⟨"s3", "C", StepStatus.upcoming⟩] = 1 ∧
    countCurrent
      ((taskStepUpdate
          (taskStart ChatState.init "t"
            [⟨"s1", "A", StepStatus.current⟩, ⟨"s2", "B", StepStatus.upcoming⟩,
             ⟨"s3", "C", StepStatus.upcoming⟩])
          1 StepStatus.completed).taskSteps) = 2 := by
  exact ⟨rfl, rfl⟩

/-- C3 (amended): the single-`current` invariant is preserved by
`task.step_update` events that carry a non-`current` status and target the
index holding the `current` marker, and by toggles of the step holding the
marker; moreover a step other than the directly-updated index becomes
`current` only if it was `upcoming` immediately before (promotion).  As
stated the claim fails — see the counterexample. -/
theorem c3_single_current_amended (st : ChatState) (i : Nat) (status : StepStatus)
    (stepId : String) :
    (status ≠ StepStatus.current →
      (∀ (j : Nat) (s : Step), st.taskSteps[j]? = some s →
        s.status = StepStatus.current → j = i) →
      countCurrent (taskStepUpdate st i status).taskSteps ≤ 1) ∧
    ((∀ (j : Nat) (s : Step), st.taskSteps[j]? = some s →
        s.status = StepStatus.current →
        st.taskSteps.findIdx? (fun t => t.id == stepId) = some j) →
      countCurrent (handleToggleStep st stepId).1.taskSteps ≤ 1) ∧
    (∀ (j : Nat) (s s' : Step), j ≠ i → st.taskSteps[j]? = some s →
      ((taskStepUpdate st i status).taskSteps)[j]? = some s' →
      s'.status = StepStatus.current →
      s.status = StepStatus.current ∨ s.status = StepStatus.upcoming) := by
  refine ⟨?_, ?_, ?_⟩
  · intro hst hcur
    unfold taskStepUpdate
    apply countCurrent_le_one _ (i + 1)
    intro j s' hj hc
    rw [getElem?_mapIdxFrom] at hj
    cases hg : st.taskSteps[j]? with
    | none => rw [hg] at hj; cases hj
    | some s =>
        rw [hg, Option.map_some'] at hj
        have hs' : s' = _ := (Option.some.injEq _ _ ▸ hj).symm
        rw [hs'] at hc
        simp only [Nat.zero_add] at hc
        split at hc
        · exact absurd hc hst
        · next hneg =>
            split at hc
            · next hcond => exact hcond.1
            · exact absurd (hcur j s hg hc) hneg
  · intro hcur
    unfold handleToggleStep
    cases hfind : st.taskSteps.findIdx? (fun t => t.id == stepId) with
    | none =>
        simp only [hfind]
        have h0 : countCurrent st.taskSteps = 0 := by
          apply countCurrent_zero_of_none
          intro j s hj hc
          have := hcur j s hj hc
          rw [hfind] at this
          cases this
        omega
    | some stepIndex =>
        cases hget : st.taskSteps[stepIndex]? with
        | none =>
            simp only [hfind, hget]
            apply countCurrent_le_one _ stepIndex
            intro j s hj hc
            have := hcur j s hj hc
            rw [hfind] at this
            exact (Option.some.injEq _ _ ▸ this).symm
        | some step =>
            simp only [hfind, hget]
            apply countCurrent_le_one _ (stepIndex + 1)
            intro j s' hj hc
            rw [getElem?_mapIdxFrom] at hj
            cases hg : st.taskSteps[j]? with
            | none => rw [hg] at hj; cases hj
            | some s =>
                rw [hg, Option.map_some'] at hj
                have hs' : s' = _ := (Option.some.injEq _ _ ▸ hj).symm
                rw [hs'] at hc
                simp only [Nat.zero_add] at hc
                by_cases hjs : j = stepIndex
                · rw [if_pos hjs] at hc
                  by_cases hss : step.status = StepStatus.completed <;>
                    simp [hss] at hc
                · rw [if_neg hjs] at hc
                  by_cases hcond : (if step.status = StepStatus.completed then
                      StepStatus.upcoming else StepStatus.completed)
                        = StepStatus.completed ∧
                      j = stepIndex + 1 ∧ s.status = StepStatus.upcoming
                  · exact hcond.2.1
                  · rw [if_neg hcond] at hc
                    have := hcur j s hg hc
                    rw [hfind] at this
                    exact absurd (Option.some.injEq _ _ ▸ this).symm hjs
  · intro j s s' hji hj hj' hc
    unfold taskStepUpdate at hj'
    rw [getElem?_mapIdxFrom, hj, Option.map_some'] at hj'
    have hs' : s' = _ := (Option.some.injEq _ _ ▸ hj').symm
    rw [hs'] at hc
    simp only [Nat.zero_add] at hc
    split at hc
    · next heq => exact absurd heq hji
    · next hneg =>
        split at hc
        · next hcond => exact Or.inr hcond.2
        · exact Or.inl hc

/-- Witness for C3 (amended) at a concrete two-step task, completing the
step that holds the `current` marker. -/
theorem c3_single_current_amended_witness :
    countCurrent (taskStepUpdate
      ⟨[], false, [], false, "t",
        [⟨"a", "A", StepStatus.current⟩, ⟨"b", "B", StepStatus.upcoming⟩],
        true, false, "", 0⟩ 0 StepStatus.completed).taskSteps ≤ 1 := by
  have h := c3_single_current_amended
    ⟨[], false, [], false, "t",
      [⟨"a", "A", StepStatus.current⟩, ⟨"b", "B", StepStatus.upcoming⟩],
      true, false, "", 0⟩ 0 StepStatus.completed "a"
  refine h.1 (by decide) ?_
  intro j s hj hc
  match j with
  | 0 => rfl
  | 1 =>
      simp only [List.getElem?_cons_succ, List.getElem?_cons_zero,
        Option.some.injEq] at hj
      rw [← hj] at hc
      exact absurd hc (by decide)
  | n + 2 => simp at hj

/-- C7 counterexample: at `ai.turn_complete`, a streaming AI message whose
content ends in an unclosed `[TASK: {` directive fragment is finalized with
the fragment still present — it is not stripped, refuting the claim's
"any trailing unclosed directive fragment is stripped". -/
theorem c7_unclosed_fragment_kept_counterexample :
    ((turnComplete
        ⟨[⟨0, Role.ai, "See [TASK: \x7b\"t\": 1", 0, true⟩], true, [], true,
          "", [], false, true, "See [TASK: \x7b\"t\": 1", 1⟩).messages.map
      (fun m => (m.content, m.isStreaming)))
      = [("See [TASK: \x7b\"t\": 1", false)] := by
  rfl

/-- C7 (amended): `ai.turn_complete` finalizes the open streaming AI
message even when no per-delta completion flag arrived, passing its
accumulated content through the turn-complete cleanup — which strips a
closed `[TASK: {...}]` directive by bracket counting (nested payloads
included) but leaves an unclosed trailing fragment visible — and marks
every thinking step complete, clearing the streaming/loading/thinking
flags. -/
theorem c7_turn_complete_finalizes (st : ChatState) (m : Message)
    (hlast : st.messages.getLast? = some m)
    (hai : m.role = Role.ai) (hstr : m.isStreaming = true) :
    (turnComplete st).messages.getLast?
      = some { m with content := cleanTurnComplete m.content, isStreaming := false } ∧
    (∀ s ∈ (turnComplete st).thinkingSteps, s.status = ThinkStatus.complete) ∧
    (turnComplete st).isAiStreaming = false ∧
    (turnComplete st).isLoading = false ∧
    (turnComplete st).isThinking = false ∧
    cleanTurnComplete "Done [TASK: \x7b\"steps\": [\x7b\"id\": 1\x7d]\x7d]" = "Done" ∧
    cleanTurnComplete "See [TASK: \x7b\"t\": 1" = "See [TASK: \x7b\"t\": 1" := by
  have hne : st.messages ≠ [] := by
    intro he
    rw [he] at hlast
    cases hlast
  have hlen : 1 ≤ st.messages.length := by
    cases hms : st.messages with
    | nil => exact absurd hms hne
    | cons a t => simp
  refine ⟨?_, ?_, rfl, rfl, rfl, by rfl, by rfl⟩
  · show (mapIdxFrom _ 0 st.messages).getLast? = _
    rw [getLast?_mapIdxFrom _ 0 _ m hlast]
    rw [if_pos ⟨by omega, hai, hstr⟩]
  · intro s hs
    have hs' : s ∈ st.thinkingSteps.map (fun t =>
        { t with status := ThinkStatus.complete }) := hs
    simp only [List.mem_map] at hs'
    obtain ⟨t, _, ht⟩ := hs'
    rw [← ht]

/-- Witness for C7 (amended) at a concrete single-message state. -/
theorem c7_turn_complete_finalizes_witness :
    (turnComplete
        ⟨[⟨0, Role.ai, "ok", 0, true⟩], true, [], true, "", [], false, true,
          "ok", 1⟩).messages.getLast?
      = some ⟨0, Role.ai, cleanTurnComplete "ok", 0, false⟩ := by
  have h := c7_turn_complete_finalizes
    ⟨[⟨0, Role.ai, "ok", 0, true⟩], true, [], true, "", [], false, true, "ok", 1⟩
    ⟨0, Role.ai, "ok", 0, true⟩ rfl rfl rfl
  exact h.1

/-- C10: a `sendMessage` whose content trims to the empty string with no
attachments returns without touching the message list, the loading flag or
the thinking state, and transmits nothing. -/
theorem c10_sendMessage_blank_noop (st : ChatState) (content : String)
    (attachments : Option (List Attachment)) (cf : Option (Option String))
    (now : Nat) (hc : jsTrim content.toList = [])
    (ha : attachments = none ∨ attachments = some []) :
    sendMessage st content attachments cf now = (st, []) := by
  have hemp : (attachments.getD []).isEmpty = true := by
    rcases ha with h | h <;> simp [h]
  unfold sendMessage
  rw [if_pos ⟨hc, hemp⟩]

/-- Witness for C10: whitespace-only content with absent attachments. -/
theorem c10_sendMessage_blank_noop_witness :
    sendMessage ChatState.init "   " none none 0 = (ChatState.init, []) :=
  c10_sendMessage_blank_noop ChatState.init "   " none none 0 (by decide)
    (Or.inl rfl)

/-- C1 (code evaluated at the failing input): a single streamed `ai.text`
delta containing a task directive whose payload holds a nested bracketed
array is mangled by the naive per-delta regex — its greedy `[^}]*` stops at
the first `}`, the strip cuts there, and the delimiter characters `}]`
remain in the displayed message; the bracket-counted turn-complete strip no
longer finds a `[TASK:` marker, so the leak persists in the final
transcript.  A flat (non-nested) payload is stripped in full by the same
regex. -/
theorem c1_nested_directive_leak :
    stripDeltaPatterns "[TASK: \x7b\"steps\": [\x7b\"id\": 1\x7d]\x7d]" = "\x7d]" ∧
    stripDeltaPatterns "[TASK: \x7b\"title\": \"x\"\x7d]" = "" ∧
    ((turnComplete (aiText ChatState.init
        "[TASK: \x7b\"steps\": [\x7b\"id\": 1\x7d]\x7d]" false 0)).messages.map
      Message.content) = ["\x7d]"] := by
  exact ⟨rfl, rfl, rfl⟩

end Chat

end Opticia
